import Mathlib

/-!
Verification of the incremental-ingestion core of `src/collect_data.py`:
the fetch / parse / merge / persist pipeline for monthly labor statistics.

Shallow embedding conventions:
* A pandas DataFrame of observations is a `List Row`; the `datetime64`
  date column is a `Date` triple ordered lexicographically (pandas compares
  timestamps, and `pd.to_datetime "Y-M-D"` is monotone in (year, month, day)).
* Python floats are modelled as exact rationals `ℚ` (BLS values are short
  decimals, which round-trip exactly through pandas CSV I/O).
* Fallible Python code (exceptions) is modelled with `Option` / `Except`.
* The network is an oracle `Bool → HttpResp`: the response the remote
  service gives to the request with (`true`) or without (`false`) the
  registration key.
-/

/-- Calendar date as stored in the `date` column (`pd.to_datetime` of a
`"YYYY-MM-DD"` string). Ordering of `datetime64` values is lexicographic in
(year, month, day). -/
structure Date where
  year : Nat
  month : Nat
  day : Nat
deriving DecidableEq, Repr

namespace Date

/-- `a ≤ b` on timestamps: lexicographic on (year, month, day). -/
def le (a b : Date) : Bool :=
  a.year < b.year ||
    (a.year == b.year && (a.month < b.month ||
      (a.month == b.month && a.day ≤ b.day)))

/-- `a < b` on timestamps: lexicographic on (year, month, day). -/
def lt (a b : Date) : Bool :=
  a.year < b.year ||
    (a.year == b.year && (a.month < b.month ||
      (a.month == b.month && a.day < b.day)))

/-- Binary maximum of two dates, as used by `Series.max`. -/
def max (a b : Date) : Date := if le a b then b else a

theorem le_refl (a : Date) : le a a = true := by
  simp [le]

theorem le_total (a b : Date) : le a b = true ∨ le b a = true := by
  simp only [le, Bool.or_eq_true, Bool.and_eq_true, decide_eq_true_eq, beq_iff_eq]
  omega

theorem le_trans {a b c : Date} (h1 : le a b = true) (h2 : le b c = true) :
    le a c = true := by
  simp only [le, Bool.or_eq_true, Bool.and_eq_true, decide_eq_true_eq, beq_iff_eq] at *
  omega

theorem lt_iff_not_le {a b : Date} : lt a b = true ↔ ¬ le b a = true := by
  simp only [lt, le, Bool.or_eq_true, Bool.and_eq_true, decide_eq_true_eq, beq_iff_eq]
  omega

theorem le_max_left (a b : Date) : le a (max a b) = true := by
  unfold max
  by_cases h : le a b = true
  · simp [h]
  · simp [h, le_refl]

theorem le_max_right (a b : Date) : le b (max a b) = true := by
  unfold max
  by_cases h : le a b = true
  · simp [h, le_refl]
  · rcases le_total a b with h1 | h1
    · exact absurd h1 h
    · simp [h, h1]

end Date

/-- One observation row of the canonical table, as produced in
`parse_bls_data` (after `main` has converted the `date` column with
`pd.to_datetime`). -/
structure Row where
  date : Date
  series_id : String
  series_name : String
  value : ℚ
  year : Int
  period : String
  period_name : String
deriving DecidableEq, Repr

/-- The dedup key used by `drop_duplicates(subset=['date', 'series_id'])`. -/
def Row.key (r : Row) : Date × String := (r.date, r.series_id)

/-- No two rows of the table share the `(date, series_id)` key. -/
def NoDupKeys (l : List Row) : Prop :=
  l.Pairwise (fun a b => a.key ≠ b.key)

instance : DecidablePred NoDupKeys := fun l =>
  l.instDecidablePairwise

/-- `get_latest_date`: `df['date'].max()` over the table, `None` when empty. -/
def get_latest_date : List Row → Option Date
  | [] => none
  | r :: rs => some (rs.foldl (fun acc x => Date.max acc x.date) r.date)

/-- `drop_duplicates(subset=['date', 'series_id'], keep='last')`: a row is
kept iff no later row carries the same `(date, series_id)` key. -/
def dropDupLast : List Row → List Row
  | [] => []
  | r :: rs =>
    if rs.any (fun x => x.key == r.key) then dropDupLast rs
    else r :: dropDupLast rs

/-- The sort relation of `sort_values('date')`. -/
def dateLE (a b : Row) : Prop := Date.le a.date b.date = true

instance : DecidableRel dateLE := fun a b => decEq (Date.le a.date b.date) true

/-- `append_new_data(existing_df, new_df)`: the ingestion merge.
Empty existing table returns the incoming rows as-is; otherwise incoming
rows dated at or before the watermark are discarded, and the survivors (if
any) are appended, sorted by date, and de-duplicated keeping the last
occurrence of each `(date, series_id)` key. -/
def append_new_data (existing_df new_df : List Row) : List Row :=
  if existing_df = [] then new_df
  else
    match get_latest_date existing_df with
    | none => new_df
    | some latest_date =>
      let new_records := new_df.filter (fun r => Date.lt latest_date r.date)
      if new_records = [] then existing_df
      else
        dropDupLast (List.insertionSort dateLE (existing_df ++ new_records))

/-! ### Lemmas about `dropDupLast` and `get_latest_date` -/

theorem mem_of_mem_dropDupLast {r : Row} :
    ∀ {l : List Row}, r ∈ dropDupLast l → r ∈ l := by
  intro l
  induction l with
  | nil => intro h; exact absurd h (List.not_mem_nil r)
  | cons x xs ih =>
    intro h
    rw [dropDupLast] at h
    by_cases hdup : xs.any (fun y => y.key == x.key) = true
    · rw [if_pos hdup] at h
      exact List.mem_cons_of_mem x (ih h)
    · rw [if_neg hdup] at h
      rcases List.mem_cons.mp h with h1 | h1
      · exact h1 ▸ List.mem_cons_self x xs
      · exact List.mem_cons_of_mem x (ih h1)

theorem noDupKeys_dropDupLast : ∀ l : List Row, NoDupKeys (dropDupLast l) := by
  intro l
  induction l with
  | nil => exact List.Pairwise.nil
  | cons x xs ih =>
    rw [dropDupLast]
    by_cases hdup : xs.any (fun y => y.key == x.key) = true
    · rw [if_pos hdup]; exact ih
    · rw [if_neg hdup]
      refine List.Pairwise.cons ?_ ih
      intro r hr hkey
      have hmem : r ∈ xs := mem_of_mem_dropDupLast hr
      simp only [List.any_eq_true, beq_iff_eq, not_exists] at hdup
      exact absurd hkey.symm (by push_neg at hdup; exact hdup r hmem)

theorem mem_dropDupLast_of_unique_key {r : Row} :
    ∀ {l : List Row}, r ∈ l → (∀ r' ∈ l, r'.key = r.key → r' = r) →
      r ∈ dropDupLast l := by
  intro l
  induction l with
  | nil => intro h; exact absurd h (List.not_mem_nil r)
  | cons x xs ih =>
    intro hmem huniq
    rw [dropDupLast]
    by_cases hinxs : r ∈ xs
    · have hr : r ∈ dropDupLast xs :=
        ih hinxs (fun r' h' hk => huniq r' (List.mem_cons_of_mem x h') hk)
      by_cases hdup : xs.any (fun y => y.key == x.key) = true
      · rw [if_pos hdup]; exact hr
      · rw [if_neg hdup]; exact List.mem_cons_of_mem x hr
    · have hx : x = r := by
        rcases List.mem_cons.mp hmem with h1 | h1
        · exact h1.symm
        · exact absurd h1 hinxs
      have hdup : ¬ xs.any (fun y => y.key == x.key) = true := by
        simp only [List.any_eq_true, beq_iff_eq, not_exists]
        push_neg
        intro y hy hk
        have : y = r := huniq y (List.mem_cons_of_mem x hy) (hx ▸ hk)
        exact hinxs (this ▸ hy)
      rw [if_neg hdup, hx]
      exact List.mem_cons_self r (dropDupLast xs)

theorem le_foldl_max_init (xs : List Row) :
    ∀ a : Date, Date.le a (xs.foldl (fun acc x => Date.max acc x.date) a) = true := by
  induction xs with
  | nil => intro a; exact Date.le_refl a
  | cons x xs ih =>
    intro a
    exact Date.le_trans (Date.le_max_left a x.date) (ih (Date.max a x.date))

theorem le_foldl_max_mem {r : Row} {xs : List Row} (h : r ∈ xs) :
    ∀ a : Date, Date.le r.date (xs.foldl (fun acc x => Date.max acc x.date) a) = true := by
  induction xs with
  | nil => exact absurd h (List.not_mem_nil r)
  | cons x xs ih =>
    intro a
    rcases List.mem_cons.mp h with h1 | h1
    · subst h1
      exact Date.le_trans (Date.le_max_right a r.date) (le_foldl_max_init xs _)
    · exact ih h1 _

/-- Every row's date is at most the watermark computed by `get_latest_date`. -/
theorem le_get_latest {l : List Row} {D : Date}
    (hD : get_latest_date l = some D) {r : Row} (hr : r ∈ l) :
    Date.le r.date D = true := by
  cases l with
  | nil => exact absurd hr (List.not_mem_nil r)
  | cons x xs =>
    rw [get_latest_date] at hD
    have hDe : xs.foldl (fun acc y => Date.max acc y.date) x.date = D :=
      Option.some.inj hD
    rcases List.mem_cons.mp hr with h1 | h1
    · subst h1; exact hDe ▸ le_foldl_max_init xs r.date
    · exact hDe ▸ le_foldl_max_mem h1 x.date

/-! ### Concrete rows used in scenarios and counterexamples -/

/-- Scenario row: existing observation for 2024-01-01, series `X`. -/
def scenEx1 : Row := ⟨⟨2024, 1, 1⟩, "X", "X", 100, 2024, "M01", "January"⟩

/-- Scenario row: existing observation for 2024-02-01, series `X`. -/
def scenEx2 : Row := ⟨⟨2024, 2, 1⟩, "X", "X", 200, 2024, "M02", "February"⟩

/-- Scenario row: incoming observation for 2024-02-01 (same key as `scenEx2`,
different value). -/
def scenIn1 : Row := ⟨⟨2024, 2, 1⟩, "X", "X", 250, 2024, "M02", "February"⟩

/-- Scenario row: incoming observation for 2024-03-01, series `X`. -/
def scenIn2 : Row := ⟨⟨2024, 3, 1⟩, "X", "X", 300, 2024, "M03", "March"⟩

/-- A second row with the same `(date, series_id)` key as `scenEx1` but a
different value. -/
def scenDup : Row := ⟨⟨2024, 1, 1⟩, "X", "X", 101, 2024, "M01", "January"⟩

/-! ### Merge theorems -/

/-- C6: merging an empty incoming sequence is the identity on any table
(both the empty-existing and the no-new-records branch of
`append_new_data` return their input unchanged); `append_new_data` is a
total Lean function, so the merge never fails. -/
theorem merge_empty_incoming_identity (T : List Row) : append_new_data T [] = T := by
  cases T with
  | nil => rfl
  | cons x xs => rfl

/-- C1 fails on the first-run path: with an empty existing table,
`append_new_data` returns the incoming rows as-is without de-duplication,
so an incoming sequence with a repeated `(date, series_id)` key produces a
table violating the no-duplicate invariant. -/
theorem firstRun_duplicates_survive :
    append_new_data [] [scenEx1, scenDup] = [scenEx1, scenDup] ∧
      ¬ NoDupKeys (append_new_data [] [scenEx1, scenDup]) := by
  constructor
  · rfl
  · decide

/-- C1 (amended): whenever the existing table is non-empty and itself has
pairwise-distinct `(date, series_id)` keys, the merge result has
pairwise-distinct keys (the no-op branch returns the existing table, and
the appending branch ends in `drop_duplicates`). -/
theorem merge_noDupKeys (existing incoming : List Row)
    (h1 : existing ≠ []) (h2 : NoDupKeys existing) :
    NoDupKeys (append_new_data existing incoming) := by
  cases existing with
  | nil => exact absurd rfl h1
  | cons x xs =>
    rw [append_new_data, if_neg h1]
    simp only [get_latest_date]
    by_cases hnr :
        incoming.filter
          (fun r => Date.lt (xs.foldl (fun acc y => Date.max acc y.date) x.date) r.date) = []
    · rw [if_pos hnr]; exact h2
    · rw [if_neg hnr]; exact noDupKeys_dropDupLast _

/-- Closed instance of `merge_noDupKeys` at the spec scenario inputs. -/
theorem merge_noDupKeys_witness :
    ([scenEx1, scenEx2] ≠ ([] : List Row)) ∧ NoDupKeys [scenEx1, scenEx2] ∧
      NoDupKeys (append_new_data [scenEx1, scenEx2] [scenIn1, scenIn2]) :=
  ⟨by decide, by decide,
    merge_noDupKeys [scenEx1, scenEx2] [scenIn1, scenIn2] (by decide) (by decide)⟩

/-- C2: every row of the merge result either already belonged to the
existing table or is dated strictly after the watermark `D`; incoming rows
with `date <= D` are discarded by the `new_df['date'] > latest_date`
filter and cannot appear in the result. -/
theorem merge_watermark_exclusion (existing incoming : List Row) (D : Date)
    (h1 : existing ≠ []) (hD : get_latest_date existing = some D) :
    ∀ r ∈ append_new_data existing incoming,
      r ∈ existing ∨ Date.lt D r.date = true := by
  intro r hr
  rw [append_new_data, if_neg h1, hD] at hr
  simp only [] at hr
  by_cases hnr : incoming.filter (fun x => Date.lt D x.date) = []
  · rw [if_pos hnr] at hr
    exact Or.inl hr
  · rw [if_neg hnr] at hr
    have h2 : r ∈ List.insertionSort dateLE
        (existing ++ incoming.filter (fun x => Date.lt D x.date)) :=
      mem_of_mem_dropDupLast hr
    have h3 : r ∈ existing ++ incoming.filter (fun x => Date.lt D x.date) :=
      (List.perm_insertionSort dateLE _).mem_iff.mp h2
    rcases List.mem_append.mp h3 with h4 | h4
    · exact Or.inl h4
    · exact Or.inr (List.mem_filter.mp h4).2

/-- Closed instance of `merge_watermark_exclusion` at the spec scenario. -/
theorem merge_watermark_exclusion_witness :
    ([scenEx1, scenEx2] ≠ ([] : List Row)) ∧
      get_latest_date [scenEx1, scenEx2] = some ⟨2024, 2, 1⟩ ∧
      (scenEx1 ∈ [scenEx1, scenEx2] ∨ Date.lt ⟨2024, 2, 1⟩ scenEx1.date = true) :=
  ⟨by decide, by decide,
    merge_watermark_exclusion [scenEx1, scenEx2] [scenIn1, scenIn2] ⟨2024, 2, 1⟩
      (by decide) (by decide) scenEx1 (by decide)⟩

/-- C3: the merge never alters or removes existing rows — for a non-empty
existing table with unique `(date, series_id)` keys, every existing row is
a member of the merge result — and on the spec scenario (existing
2024-01-01 and 2024-02-01 of series `X`, incoming 2024-02-01 with a
different value and 2024-03-01) the result keeps the original 2024-02-01
row and has exactly the three rows `[scenEx1, scenEx2, scenIn2]`. -/
theorem merge_preserves_existing :
    (∀ existing incoming : List Row, existing ≠ [] → NoDupKeys existing →
      ∀ r ∈ existing, r ∈ append_new_data existing incoming) ∧
      append_new_data [scenEx1, scenEx2] [scenIn1, scenIn2] = [scenEx1, scenEx2, scenIn2] := by
  constructor
  · intro existing incoming h1 h2 r hr
    obtain ⟨D, hD⟩ : ∃ D, get_latest_date existing = some D := by
      cases existing with
      | nil => exact absurd rfl h1
      | cons x xs => exact ⟨_, rfl⟩
    rw [append_new_data, if_neg h1, hD]
    simp only []
    by_cases hnr : incoming.filter (fun x => Date.lt D x.date) = []
    · rw [if_pos hnr]; exact hr
    · rw [if_neg hnr]
      apply mem_dropDupLast_of_unique_key
      · exact (List.perm_insertionSort dateLE _).mem_iff.mpr
          (List.mem_append_left _ hr)
      · intro r' hr' hk
        have hmem : r' ∈ existing ++ incoming.filter (fun x => Date.lt D x.date) :=
          (List.perm_insertionSort dateLE _).mem_iff.mp hr'
        rcases List.mem_append.mp hmem with h4 | h4
        · by_cases heq : r' = r
          · exact heq
          · have hsym : Symmetric (fun a b : Row => a.key ≠ b.key) :=
              fun a b h => fun he => h he.symm
            exact absurd hk (h2.forall hsym h4 hr heq)
        · exfalso
          have hlt : Date.lt D r'.date = true := (List.mem_filter.mp h4).2
          have hle : Date.le r.date D = true := le_get_latest hD hr
          have hdates : r'.date = r.date := congrArg Prod.fst hk
          rw [hdates] at hlt
          exact (Date.lt_iff_not_le.mp hlt) hle
  · decide

/-- Closed instance of the universal part of `merge_preserves_existing`
at the spec scenario inputs. -/
theorem merge_preserves_existing_witness :
    ([scenEx1, scenEx2] ≠ ([] : List Row)) ∧ NoDupKeys [scenEx1, scenEx2] ∧
      scenEx2 ∈ append_new_data [scenEx1, scenEx2] [scenIn1, scenIn2] :=
  ⟨by decide, by decide,
    merge_preserves_existing.1 [scenEx1, scenEx2] [scenIn1, scenIn2]
      (by decide) (by decide) scenEx2 (by decide)⟩

/-! ### Remote fetcher (`fetch_bls_data_single`) -/

/-- One `{year, period, periodName, value}` entry of a BLS response; all
fields arrive as JSON strings. -/
structure RawItem where
  year : String
  period : String
  periodName : String
  value : String
deriving DecidableEq, Repr

/-- One entry of `Results.series`. -/
structure SeriesData where
  data : List RawItem
deriving DecidableEq, Repr

/-- The decoded JSON body of a BLS response: the `status` envelope field
and `Results.series`. -/
structure BlsBody where
  status : String
  results : List SeriesData
deriving DecidableEq, Repr

/-- An HTTP response: status code plus decoded JSON body. -/
structure HttpResp where
  status_code : Nat
  body : BlsBody
deriving DecidableEq, Repr

/-- `fetch_bls_data_single(series_id, start_year, end_year, api_key)`.
The network is an oracle `net : Bool → HttpResp` giving the remote's
response to the request with (`true`) or without (`false`) the
registration key. Returns the JSON body on success (`none` on failure)
together with the trace of attempts made, each entry recording whether the
key was sent. The recursive `api_key=None` retry in the source has depth
at most one and is unrolled here. -/
def fetch_bls_data_single (net : Bool → HttpResp) (hasKey : Bool) :
    Option BlsBody × List Bool :=
  let resp := net hasKey
  if resp.status_code ≠ 200 then (none, [hasKey])
  else if resp.body.status ≠ "REQUEST_SUCCEEDED" then
    if hasKey then
      let resp2 := net false
      if resp2.status_code ≠ 200 then (none, [hasKey, false])
      else if resp2.body.status ≠ "REQUEST_SUCCEEDED" then (none, [hasKey, false])
      else (some resp2.body, [hasKey, false])
    else (none, [hasKey])
  else (some resp.body, [hasKey])

/-- C4: on an HTTP-200 response whose envelope status is not
`REQUEST_SUCCEEDED`, a keyed fetch makes exactly one further attempt
without the key and returns that attempt's result, while a keyless fetch
fails immediately with a single attempt and no retry. -/
theorem fetch_retry_once_without_key (net : Bool → HttpResp) :
    ((net true).status_code = 200 → (net true).body.status ≠ "REQUEST_SUCCEEDED" →
      (fetch_bls_data_single net true).2 = [true, false] ∧
      (fetch_bls_data_single net true).1 = (fetch_bls_data_single net false).1) ∧
    ((net false).status_code = 200 → (net false).body.status ≠ "REQUEST_SUCCEEDED" →
      fetch_bls_data_single net false = (none, [false])) := by
  constructor
  · intro hok hbad
    rw [fetch_bls_data_single]
    simp only [hok, hbad]
    rw [fetch_bls_data_single]
    by_cases h2 : (net false).status_code = 200
    · by_cases h3 : (net false).body.status = "REQUEST_SUCCEEDED"
      · simp [hbad, h2, h3]
      · simp [hbad, h2, h3]
    · simp [hbad, h2]
  · intro hok hbad
    rw [fetch_bls_data_single]
    simp [hok, hbad]

/-- A network where the remote rejects both the keyed and the keyless
request with an HTTP-200 envelope failure. -/
def netRejected : Bool → HttpResp :=
  fun _ => ⟨200, ⟨"REQUEST_NOT_PROCESSED", []⟩⟩

/-- Closed instance of `fetch_retry_once_without_key` on `netRejected`. -/
theorem fetch_retry_once_without_key_witness :
    ((fetch_bls_data_single netRejected true).2 = [true, false] ∧
      (fetch_bls_data_single netRejected true).1 =
        (fetch_bls_data_single netRejected false).1) ∧
    fetch_bls_data_single netRejected false = (none, [false]) :=
  ⟨(fetch_retry_once_without_key netRejected).1 rfl (by decide),
    (fetch_retry_once_without_key netRejected).2 rfl (by decide)⟩

/-- C9: a non-200 HTTP status makes `fetch_bls_data_single` return `None`
after the single attempt — the credential-downgrade retry is reached only
through the envelope-status check, never for transport/status failures. -/
theorem fetch_non200_fails_without_retry (net : Bool → HttpResp) (hasKey : Bool)
    (h : (net hasKey).status_code ≠ 200) :
    fetch_bls_data_single net hasKey = (none, [hasKey]) := by
  rw [fetch_bls_data_single]
  simp [h]

/-- A network that answers every request with HTTP 500. -/
def netServerError : Bool → HttpResp :=
  fun _ => ⟨500, ⟨"REQUEST_SUCCEEDED", []⟩⟩

/-- Closed instance of `fetch_non200_fails_without_retry` at HTTP 500 with
a credential supplied. -/
theorem fetch_non200_fails_without_retry_witness :
    fetch_bls_data_single netServerError true = (none, [true]) :=
  fetch_non200_fails_without_retry netServerError true (by decide)

/-! ### Record parser (`parse_bls_data`) -/

/-- `c` is an ASCII digit. -/
def isDigitChar (c : Char) : Bool := decide ('0' ≤ c) && decide (c ≤ '9')

/-- Every character is an ASCII digit. -/
def allDigits (cs : List Char) : Bool := cs.all isDigitChar

/-- Numeric value of a digit string (meaningful when `allDigits`). -/
def natOfDigits (cs : List Char) : Nat :=
  cs.foldl (fun acc c => acc * 10 + (c.toNat - 48)) 0

/-- Split a character list at the first `'.'`, keeping track of whether a
dot was present. -/
def splitDot (cs : List Char) : List Char × Option (List Char) :=
  match cs.span (fun c => c ≠ '.') with
  | (ip, []) => (ip, none)
  | (ip, _ :: fp) => (ip, some fp)

/-- Model of Python `float(str)` restricted to optional sign, integer
digits and an optional fractional part — the grammar of BLS `value`
fields. Returns `none` exactly when Python `float` would raise
`ValueError` on such inputs (e.g. `"N/A"`, `"-"`, `""`). -/
def pyFloat (s : String) : Option ℚ :=
  let signed : Bool × List Char :=
    match s.data with
    | '-' :: rest => (true, rest)
    | '+' :: rest => (false, rest)
    | cs => (false, cs)
  let (ip, fpOpt) := splitDot signed.2
  let fp := fpOpt.getD []
  if allDigits ip && allDigits fp && !(ip.isEmpty && fp.isEmpty) then
    let den : Nat := 10 ^ fp.length
    let q : ℚ := mkRat (natOfDigits ip * den + natOfDigits fp) den
    some (if signed.1 then -q else q)
  else none

/-- Model of Python `int(str)`: optional sign followed by digits. -/
def pyInt (s : String) : Option Int :=
  match s.data with
  | '-' :: rest =>
    if allDigits rest && !rest.isEmpty then some (-(natOfDigits rest : Int)) else none
  | '+' :: rest =>
    if allDigits rest && !rest.isEmpty then some (natOfDigits rest : Int) else none
  | cs =>
    if allDigits cs && !cs.isEmpty then some (natOfDigits cs : Int) else none

/-- One parsed observation as built inside `parse_bls_data`, before `main`
converts the `date` column: the `date` field is the raw constructed string
`f"{year}-{period[1:]}-01"`. -/
structure RawRecord where
  date : String
  series_id : String
  series_name : String
  value : ℚ
  year : Int
  period : String
  period_name : String
deriving DecidableEq, Repr

/-- Builds one record of `parse_bls_data`'s loop body. `float(value)` and
`int(year)` may raise `ValueError` (in evaluation order); the date string
is pure concatenation with no period validation. -/
def parse_item (item : RawItem) (series_id series_name : String) :
    Except String RawRecord :=
  match pyFloat item.value with
  | none => .error ("ValueError: could not convert string to float: " ++ item.value)
  | some v =>
    match pyInt item.year with
    | none => .error ("ValueError: invalid literal for int with base 10: " ++ item.year)
    | some y =>
      .ok { date := item.year ++ "-" ++ item.period.drop 1 ++ "-01",
            series_id := series_id, series_name := series_name,
            value := v, year := y, period := item.period,
            period_name := item.periodName }

/-- Inner loop of `parse_bls_data` over one series' `data` list; the first
`ValueError` aborts the whole parse. -/
def parse_items (items : List RawItem) (series_id series_name : String) :
    Except String (List RawRecord) :=
  match items with
  | [] => .ok []
  | item :: rest =>
    match parse_item item series_id series_name with
    | .error e => .error e
    | .ok r =>
      match parse_items rest series_id series_name with
      | .error e => .error e
      | .ok rs => .ok (r :: rs)

/-- Outer loop of `parse_bls_data` over `Results.series`. -/
def parse_series_entries (entries : List SeriesData) (series_id series_name : String) :
    Except String (List RawRecord) :=
  match entries with
  | [] => .ok []
  | entry :: rest =>
    match parse_items entry.data series_id series_name with
    | .error e => .error e
    | .ok rs =>
      match parse_series_entries rest series_id series_name with
      | .error e => .error e
      | .ok more => .ok (rs ++ more)

/-- `parse_bls_data(json_data, series_id, series_name)`: flattens
`Results.series[*].data[*]` into records; an unparsable numeric field
raises (modelled as `Except.error`), discarding all records of the call. -/
def parse_bls_data (json_data : BlsBody) (series_id series_name : String) :
    Except String (List RawRecord) :=
  parse_series_entries json_data.results series_id series_name

/-- `collect_all_series(series_dict, ...)`: fetches each series in turn;
a failed fetch (`None`) is skipped and the run continues, but a parse
error is an uncaught Python exception that propagates and aborts the
whole run. `netOf` gives each series id its network oracle. -/
def collect_all_series (netOf : String → Bool → HttpResp)
    (series_dict : List (String × String)) (hasKey : Bool) :
    Except String (List RawRecord) :=
  match series_dict with
  | [] => .ok []
  | (series_name, series_id) :: rest =>
    match (fetch_bls_data_single (netOf series_id) hasKey).1 with
    | some json_data =>
      match parse_bls_data json_data series_id series_name with
      | .error e => .error e
      | .ok records =>
        match collect_all_series netOf rest hasKey with
        | .error e => .error e
        | .ok more => .ok (records ++ more)
    | none => collect_all_series netOf rest hasKey

/-- A response item whose numeric `value` field is unparsable. -/
def itemBadValue : RawItem := ⟨"2024", "M01", "January", "N/A"⟩

/-- A well-formed response item. -/
def itemGoodValue : RawItem := ⟨"2024", "M01", "January", "3.7"⟩

/-- A successful response body containing the malformed item. -/
def bodyBadValue : BlsBody := ⟨"REQUEST_SUCCEEDED", [⟨[itemBadValue]⟩]⟩

/-- A successful response body containing only well-formed data. -/
def bodyGoodValue : BlsBody := ⟨"REQUEST_SUCCEEDED", [⟨[itemGoodValue]⟩]⟩

/-- Two-series network: series `S1` answers with the malformed body,
every other series with the well-formed one. -/
def netTwoSeries : String → Bool → HttpResp :=
  fun sid _ => if sid = "S1" then ⟨200, bodyBadValue⟩ else ⟨200, bodyGoodValue⟩

/-- C5 fails: the malformed value does make the parse of that series fail,
but `collect_all_series` has no handler around `parse_bls_data`, so the
error propagates and the run terminates without processing the remaining
series (here `S2`, whose data is well-formed). -/
theorem parse_error_terminates_run :
    parse_bls_data bodyBadValue "S1" "First Series" =
      Except.error "ValueError: could not convert string to float: N/A" ∧
    collect_all_series netTwoSeries
        [("First Series", "S1"), ("Second Series", "S2")] false =
      Except.error "ValueError: could not convert string to float: N/A" := by
  constructor
  · rfl
  · rfl

/-- C5 (amended): an unparsable numeric `value` fails the whole parse of
that response with a `ValueError`, and since `collect_all_series` does not
catch it, the error aborts the entire collection run — remaining series
are not processed. -/
theorem parse_error_aborts_whole_run :
    (∀ (st : String) (item : RawItem) (more : List RawItem)
        (moreEntries : List SeriesData) (sid sname : String),
      pyFloat item.value = none →
      parse_bls_data ⟨st, ⟨item :: more⟩ :: moreEntries⟩ sid sname =
        Except.error ("ValueError: could not convert string to float: " ++ item.value)) ∧
    (∀ (netOf : String → Bool → HttpResp) (sname sid : String)
        (rest : List (String × String)) (hasKey : Bool) (body : BlsBody) (e : String),
      (fetch_bls_data_single (netOf sid) hasKey).1 = some body →
      parse_bls_data body sid sname = Except.error e →
      collect_all_series netOf ((sname, sid) :: rest) hasKey = Except.error e) := by
  constructor
  · intro st item more moreEntries sid sname hv
    rw [parse_bls_data]
    rw [parse_series_entries, parse_items, parse_item, hv]
  · intro netOf sname sid rest hasKey body e hf hp
    rw [collect_all_series, hf]
    simp only []
    rw [hp]

/-- Closed instance of `parse_error_aborts_whole_run`. -/
theorem parse_error_aborts_whole_run_witness :
    pyFloat itemBadValue.value = none ∧
    parse_bls_data bodyBadValue "S1" "First Series" =
      Except.error ("ValueError: could not convert string to float: " ++ itemBadValue.value) ∧
    collect_all_series netTwoSeries [("First Series", "S1")] false =
      Except.error "ValueError: could not convert string to float: N/A" :=
  ⟨rfl,
    parse_error_aborts_whole_run.1 "REQUEST_SUCCEEDED" itemBadValue [] [] "S1"
      "First Series" rfl,
    parse_error_aborts_whole_run.2 netTwoSeries "First Series" "S1" [] false
      bodyBadValue _ rfl rfl⟩

/-- A response item with the invalid monthly period code `M13`. -/
def itemM13 : RawItem := ⟨"2024", "M13", "Annual", "5.0"⟩

/-- A successful response body containing the `M13` item. -/
def bodyM13 : BlsBody := ⟨"REQUEST_SUCCEEDED", [⟨[itemM13]⟩]⟩

/-- The record `parse_bls_data` emits for the `M13` item: its date string
`"2024-13-01"` is not a valid calendar date. -/
def recM13 : RawRecord := ⟨"2024-13-01", "SID13", "Series Thirteen", 5, 2024, "M13", "Annual"⟩

/-- C8 fails: parsing a response with `period = "M13"` neither raises nor
skips — the record is emitted with the invalid date string `"2024-13-01"`. -/
theorem parse_M13_emits_invalid_date :
    parse_bls_data bodyM13 "SID13" "Series Thirteen" = Except.ok [recM13] ∧
      recM13.date = "2024-13-01" := by
  constructor
  · rfl
  · rfl

/-- C8 (amended): `parse_bls_data` performs no period validation at all —
for any item whose `value` and `year` fields parse, the record is emitted
with date string `f"{year}-{period[1:]}-01"` built verbatim from the
period field, whatever it is. -/
theorem parse_no_period_validation (st sid sname : String) (item : RawItem)
    (v : ℚ) (y : Int)
    (hv : pyFloat item.value = some v) (hy : pyInt item.year = some y) :
    parse_bls_data ⟨st, [⟨[item]⟩]⟩ sid sname =
      Except.ok [⟨item.year ++ "-" ++ item.period.drop 1 ++ "-01", sid, sname, v, y,
        item.period, item.periodName⟩] := by
  rw [parse_bls_data, parse_series_entries, parse_items, parse_item, hv, hy]
  rfl

/-- Closed instance of `parse_no_period_validation` at the `M13` item. -/
theorem parse_no_period_validation_witness :
    pyFloat itemM13.value = some 5 ∧ pyInt itemM13.year = some 2024 ∧
    parse_bls_data bodyM13 "SID13" "Series Thirteen" =
      Except.ok [⟨"2024-13-01", "SID13", "Series Thirteen", 5, 2024, "M13", "Annual"⟩] :=
  ⟨by decide, by decide,
    parse_no_period_validation "REQUEST_SUCCEEDED" "SID13" "Series Thirteen" itemM13
      5 2024 (by decide) (by decide)⟩

/-! ### Persistence (`save_data` / `load_existing_data`)

`df.to_csv` / `pd.read_csv` are modelled field-wise: the `datetime64`
column is serialised as a `"YYYY-MM-DD"` character string (`%Y-%m-%d`,
zero-padded, as pandas writes midnight-only datetime columns) and parsed
back by `pd.to_datetime`; the remaining columns round-trip verbatim
(floats are exact rationals in this embedding, matching pandas repr
round-tripping). -/

/-- Little-endian decimal digits of `n` (empty for `0`). -/
def natDigitsLE (n : Nat) : List Nat :=
  if h : n = 0 then []
  else (n % 10) :: natDigitsLE (n / 10)
decreasing_by exact Nat.div_lt_self (Nat.pos_of_ne_zero h) (by omega)

/-- Little-endian decimal value of a digit list. -/
def ofDigitsLE : List Nat → Nat
  | [] => 0
  | d :: ds => d + 10 * ofDigitsLE ds

/-- Decimal rendering of `n`, most significant digit first. -/
def natPrint (n : Nat) : List Char :=
  if n = 0 then ['0']
  else ((natDigitsLE n).reverse).map (fun d => Char.ofNat (48 + d))

/-- Left-pad with `'0'` to width `w` (`%0wd`). -/
def zeroPad (w : Nat) (cs : List Char) : List Char :=
  List.replicate (w - cs.length) '0' ++ cs

/-- `%m` / `%d`: two-digit zero-padded field. -/
def pad2 (n : Nat) : List Char := zeroPad 2 (natPrint n)

/-- `%Y`: four-digit zero-padded year. -/
def pad4 (n : Nat) : List Char := zeroPad 4 (natPrint n)

/-- Parse of one numeric CSV cell: digits only, non-empty. -/
def parseNatCell (cs : List Char) : Option Nat :=
  if allDigits cs && !cs.isEmpty then some (natOfDigits cs) else none

theorem natDigitsLE_lt (n : Nat) : ∀ d ∈ natDigitsLE n, d < 10 := by
  induction n using Nat.strong_induction_on with
  | _ n ih =>
    rw [natDigitsLE]
    by_cases h : n = 0
    · simp [h]
    · rw [dif_neg h]
      intro d hd
      rcases List.mem_cons.mp hd with h1 | h1
      · subst h1; exact Nat.mod_lt n (by omega)
      · exact ih (n / 10) (Nat.div_lt_self (Nat.pos_of_ne_zero h) (by omega)) d h1

theorem ofDigitsLE_natDigitsLE (n : Nat) : ofDigitsLE (natDigitsLE n) = n := by
  induction n using Nat.strong_induction_on with
  | _ n ih =>
    rw [natDigitsLE]
    by_cases h : n = 0
    · simp [h, ofDigitsLE]
    · rw [dif_neg h, ofDigitsLE]
      rw [ih (n / 10) (Nat.div_lt_self (Nat.pos_of_ne_zero h) (by omega))]
      omega

theorem toNat_digitChar {d : Nat} (h : d < 10) :
    (Char.ofNat (48 + d)).toNat - 48 = d := by
  interval_cases d <;> decide

theorem isDigitChar_digitChar {d : Nat} (h : d < 10) :
    isDigitChar (Char.ofNat (48 + d)) = true := by
  interval_cases d <;> decide

theorem foldl_digits_reverse (ds : List Nat) :
    ∀ acc : Nat, (ds.reverse).foldl (fun a d => a * 10 + d) acc =
      acc * 10 ^ ds.length + ofDigitsLE ds := by
  induction ds with
  | nil => intro acc; simp [ofDigitsLE]
  | cons d ds ih =>
    intro acc
    rw [List.reverse_cons, List.foldl_append]
    simp only [List.foldl_cons, List.foldl_nil, ih, ofDigitsLE, List.length_cons]
    ring

theorem natOfDigits_map_digitChar (ds : List Nat) (hds : ∀ d ∈ ds, d < 10) :
    ∀ acc : Nat,
      (ds.map (fun d => Char.ofNat (48 + d))).foldl
        (fun acc c => acc * 10 + (c.toNat - 48)) acc =
      ds.foldl (fun a d => a * 10 + d) acc := by
  induction ds with
  | nil => intro acc; rfl
  | cons d ds ih =>
    intro acc
    simp only [List.map_cons, List.foldl_cons]
    rw [toNat_digitChar (hds d (List.mem_cons_self d ds))]
    exact ih (fun x hx => hds x (List.mem_cons_of_mem d hx)) _

/-- Printing then reading a natural is the identity. -/
theorem natOfDigits_natPrint (n : Nat) : natOfDigits (natPrint n) = n := by
  rw [natPrint]
  by_cases h : n = 0
  · simp [h, natOfDigits]
  · rw [if_neg h, natOfDigits]
    have hlt : ∀ d ∈ (natDigitsLE n).reverse, d < 10 := by
      intro d hd
      exact natDigitsLE_lt n d (List.mem_reverse.mp hd)
    rw [natOfDigits_map_digitChar _ hlt 0]
    have := foldl_digits_reverse (natDigitsLE n) 0
    simpa [ofDigitsLE_natDigitsLE n] using this

theorem allDigits_natPrint (n : Nat) : allDigits (natPrint n) = true := by
  rw [natPrint]
  by_cases h : n = 0
  · simp [h]; decide
  · rw [if_neg h, allDigits, List.all_eq_true]
    intro c hc
    rcases List.mem_map.mp hc with ⟨d, hd, rfl⟩
    exact isDigitChar_digitChar (natDigitsLE_lt n d (List.mem_reverse.mp hd))

theorem natOfDigits_zeros (k : Nat) :
    ∀ acc : Nat, acc = 0 → (List.replicate k '0').foldl
      (fun acc c => acc * 10 + (c.toNat - 48)) acc = 0 := by
  induction k with
  | zero => intro acc h; simpa using h
  | succ k ih =>
    intro acc h
    rw [List.replicate_succ, List.foldl_cons]
    exact ih _ (by subst h; decide)

theorem natOfDigits_zeroPad (w : Nat) (cs : List Char) :
    natOfDigits (zeroPad w cs) = natOfDigits cs := by
  rw [zeroPad, natOfDigits, List.foldl_append]
  rw [natOfDigits_zeros _ 0 rfl]
  rfl

theorem allDigits_zeroPad {w : Nat} {cs : List Char} (h : allDigits cs = true) :
    allDigits (zeroPad w cs) = true := by
  rw [zeroPad, allDigits, List.all_append]
  rw [allDigits] at h
  rw [h]
  have : (List.replicate (w - cs.length) '0').all isDigitChar = true := by
    rw [List.all_eq_true]
    intro c hc
    rw [List.eq_of_mem_replicate hc]
    decide
  rw [this]
  rfl

theorem parseNatCell_pad2 (n : Nat) : parseNatCell (pad2 n) = some n := by
  rw [parseNatCell, pad2]
  have h1 : allDigits (zeroPad 2 (natPrint n)) = true :=
    allDigits_zeroPad (allDigits_natPrint n)
  have h2 : (zeroPad 2 (natPrint n)).isEmpty = false := by
    rw [zeroPad]
    rcases hnp : natPrint n with _ | ⟨c, cs⟩
    · exfalso
      have := allDigits_natPrint n
      rw [natPrint] at hnp
      by_cases h : n = 0
      · simp [h] at hnp
      · rw [if_neg h] at hnp
        have : natDigitsLE n ≠ [] := by
          rw [natDigitsLE, dif_neg h]
          exact List.cons_ne_nil _ _
        simp [this] at hnp
    · rw [List.isEmpty_eq_false_iff_exists_mem]
      exact ⟨c, List.mem_append_right _ (List.mem_cons_self c cs)⟩
  rw [h1, h2]
  simp only [Bool.and_true, Bool.not_false, if_pos]
  rw [natOfDigits_zeroPad]
  rw [natOfDigits_natPrint]

theorem parseNatCell_pad4 (n : Nat) : parseNatCell (pad4 n) = some n := by
  rw [parseNatCell, pad4]
  have h1 : allDigits (zeroPad 4 (natPrint n)) = true :=
    allDigits_zeroPad (allDigits_natPrint n)
  have h2 : (zeroPad 4 (natPrint n)).isEmpty = false := by
    rw [zeroPad]
    rcases hnp : natPrint n with _ | ⟨c, cs⟩
    · exfalso
      rw [natPrint] at hnp
      by_cases h : n = 0
      · simp [h] at hnp
      · rw [if_neg h] at hnp
        have : natDigitsLE n ≠ [] := by
          rw [natDigitsLE, dif_neg h]
          exact List.cons_ne_nil _ _
        simp [this] at hnp
    · rw [List.isEmpty_eq_false_iff_exists_mem]
      exact ⟨c, List.mem_append_right _ (List.mem_cons_self c cs)⟩
  rw [h1, h2]
  simp only [Bool.and_true, Bool.not_false, if_pos]
  rw [natOfDigits_zeroPad]
  rw [natOfDigits_natPrint]

/-- Serialised form of the `date` column: `%Y-%m-%d`. -/
def datePrint (d : Date) : List Char :=
  pad4 d.year ++ '-' :: (pad2 d.month ++ '-' :: pad2 d.day)

/-- Split a cell at `'-'` separators (the shape `pd.to_datetime` consumes). -/
def splitOnDash : List Char → List (List Char)
  | [] => [[]]
  | c :: cs =>
    if c = '-' then [] :: splitOnDash cs
    else
      match splitOnDash cs with
      | [] => [[c]]
      | g :: gs => (c :: g) :: gs

/-- `pd.to_datetime` on one `"YYYY-MM-DD"` cell: three dash-separated
numeric fields, else failure. -/
def dateParse (cs : List Char) : Option Date :=
  match splitOnDash cs with
  | [y, m, d] =>
    match parseNatCell y, parseNatCell m, parseNatCell d with
    | some yv, some mv, some dv => some ⟨yv, mv, dv⟩
    | _, _, _ => none
  | _ => none

theorem splitOnDash_noDash {a : List Char} (h : ∀ c ∈ a, c ≠ '-') :
    splitOnDash a = [a] := by
  induction a with
  | nil => rfl
  | cons c cs ih =>
    rw [splitOnDash]
    rw [if_neg (h c (List.mem_cons_self c cs))]
    rw [ih (fun x hx => h x (List.mem_cons_of_mem c hx))]

theorem splitOnDash_append {a : List Char} (r : List Char)
    (h : ∀ c ∈ a, c ≠ '-') :
    splitOnDash (a ++ '-' :: r) = a :: splitOnDash r := by
  induction a with
  | nil => simp [splitOnDash]
  | cons c cs ih =>
    rw [List.cons_append, splitOnDash]
    rw [if_neg (h c (List.mem_cons_self c cs))]
    rw [ih (fun x hx => h x (List.mem_cons_of_mem c hx))]

theorem noDash_of_allDigits {cs : List Char} (h : allDigits cs = true) :
    ∀ c ∈ cs, c ≠ '-' := by
  intro c hc heq
  rw [allDigits, List.all_eq_true] at h
  have := h c hc
  rw [heq] at this
  exact absurd this (by decide)

/-- `pd.to_datetime` inverts the `%Y-%m-%d` rendering. -/
theorem dateParse_datePrint (d : Date) : dateParse (datePrint d) = some d := by
  rw [dateParse, datePrint]
  have hy : ∀ c ∈ pad4 d.year, c ≠ '-' :=
    noDash_of_allDigits (allDigits_zeroPad (allDigits_natPrint d.year))
  have hm : ∀ c ∈ pad2 d.month, c ≠ '-' :=
    noDash_of_allDigits (allDigits_zeroPad (allDigits_natPrint d.month))
  have hd : ∀ c ∈ pad2 d.day, c ≠ '-' :=
    noDash_of_allDigits (allDigits_zeroPad (allDigits_natPrint d.day))
  rw [splitOnDash_append _ hy, splitOnDash_append _ hm, splitOnDash_noDash hd]
  simp only []
  rw [parseNatCell_pad4, parseNatCell_pad2, parseNatCell_pad2]

/-- One row of the persisted CSV file: the `date` cell as written by
`to_csv`, the other columns verbatim. -/
structure FileRow where
  date : List Char
  series_id : String
  series_name : String
  value : ℚ
  year : Int
  period : String
  period_name : String
deriving DecidableEq, Repr

/-- Rendering of one row by `df.to_csv`. -/
def encodeRow (r : Row) : FileRow :=
  ⟨datePrint r.date, r.series_id, r.series_name, r.value, r.year, r.period, r.period_name⟩

/-- Reading of one row by `pd.read_csv` + `pd.to_datetime` on `date`. -/
def decodeRow (fr : FileRow) : Option Row :=
  (dateParse fr.date).map fun d =>
    ⟨d, fr.series_id, fr.series_name, fr.value, fr.year, fr.period, fr.period_name⟩

/-- `os.path.dirname` (POSIX): everything before the last `'/'`, with
trailing slashes stripped unless the head is all slashes; `""` when the
path has no `'/'`. -/
def dirname (s : String) : String :=
  let rev := s.data.reverse
  let head := rev.dropWhile (fun c => c ≠ '/')
  if head.all (fun c => c = '/') then ⟨head.reverse⟩
  else ⟨(head.dropWhile (fun c => c = '/')).reverse⟩

/-- `save_data(df, filepath)`: runs
`os.makedirs(os.path.dirname(filepath), exist_ok=True)` — which raises
`FileNotFoundError` on the empty string, i.e. whenever `filepath` has no
directory component — then writes every row. -/
def save_data (df : List Row) (filepath : String) : Except String (List FileRow) :=
  if dirname filepath = "" then
    .error "FileNotFoundError: makedirs with empty path"
  else
    .ok (df.map encodeRow)

/-- `load_existing_data`: reads the rows back; `pd.to_datetime` fails on
any unparsable `date` cell. -/
def load_existing_data : List FileRow → Option (List Row)
  | [] => some []
  | fr :: rest =>
    match decodeRow fr with
    | none => none
    | some r =>
      match load_existing_data rest with
      | none => none
      | some rs => some (r :: rs)

theorem load_map_encode (df : List Row) :
    load_existing_data (df.map encodeRow) = some df := by
  induction df with
  | nil => rfl
  | cons r rs ih =>
    rw [List.map_cons, load_existing_data]
    rw [decodeRow, encodeRow]
    simp only [dateParse_datePrint]
    rw [ih]
    rfl

/-- A canonical table with two series over three dates. -/
def tbl6 : List Row :=
  [⟨⟨2024, 1, 1⟩, "A", "Series A", 1, 2024, "M01", "January"⟩,
   ⟨⟨2024, 2, 1⟩, "A", "Series A", 2, 2024, "M02", "February"⟩,
   ⟨⟨2024, 3, 1⟩, "A", "Series A", 3, 2024, "M03", "March"⟩,
   ⟨⟨2024, 1, 1⟩, "B", "Series B", 4, 2024, "M01", "January"⟩,
   ⟨⟨2024, 2, 1⟩, "B", "Series B", 5, 2024, "M02", "February"⟩,
   ⟨⟨2024, 3, 1⟩, "B", "Series B", 6, 2024, "M03", "March"⟩]

/-- C7: persistence round-trips — whenever `save_data` succeeds, loading
the written file returns the table exactly (hence also as a set of rows) —
and the first-run path of the merge passes the incoming sequence through
unchanged. -/
theorem save_load_roundtrip_and_firstRun :
    (∀ (T : List Row) (path : String) (file : List FileRow),
      T ≠ [] → save_data T path = Except.ok file →
      load_existing_data file = some T) ∧
    (∀ incoming : List Row, append_new_data [] incoming = incoming) := by
  constructor
  · intro T path file _ hsave
    rw [save_data] at hsave
    by_cases h : dirname path = ""
    · rw [if_pos h] at hsave
      exact absurd hsave (by simp)
    · rw [if_neg h] at hsave
      have hfile : file = T.map encodeRow := (Except.ok.inj hsave).symm
      rw [hfile, load_map_encode]
  · intro incoming
    rfl

/-- Closed instance of `save_load_roundtrip_and_firstRun` on a table with
two series and three dates, saved at the repository's output path. -/
theorem save_load_roundtrip_witness :
    (tbl6 ≠ []) ∧
      save_data tbl6 "data/processed/labor_stats.csv" = Except.ok (tbl6.map encodeRow) ∧
      load_existing_data (tbl6.map encodeRow) = some tbl6 ∧
      append_new_data [] [scenIn1, scenIn2] = [scenIn1, scenIn2] :=
  ⟨by simp [tbl6], by rfl,
    save_load_roundtrip_and_firstRun.1 tbl6 "data/processed/labor_stats.csv" _
      (by simp [tbl6]) rfl,
    save_load_roundtrip_and_firstRun.2 [scenIn1, scenIn2]⟩

/-- C10: `save_data` on a bare filename fails — `os.path.dirname` of a
path without `'/'` is the empty string, and `os.makedirs("")` raises
`FileNotFoundError` even with `exist_ok=True`, before the file write. -/
theorem save_bare_filename_fails (df : List Row) (path : String)
    (h : ∀ c ∈ path.data, c ≠ '/') :
    save_data df path = Except.error "FileNotFoundError: makedirs with empty path" := by
  have h1 : path.data.reverse.dropWhile (fun c => decide (c ≠ '/')) = [] := by
    rw [List.dropWhile_eq_nil_iff]
    intro c hc
    simp only [decide_eq_true_eq]
    exact h c (List.mem_reverse.mp hc)
  have hd : dirname path = "" := by
    simp only [dirname, h1]
    rfl
  rw [save_data, if_pos hd]

/-- Closed instance of `save_bare_filename_fails` at the bare filename
`"labor_stats.csv"`. -/
theorem save_bare_filename_fails_witness :
    save_data [scenEx1] "labor_stats.csv" =
      Except.error "FileNotFoundError: makedirs with empty path" :=
  save_bare_filename_fails [scenEx1] "labor_stats.csv" (by decide)
